import Mathlib

/-!
Verification of the per-worker concurrency engine of the wrk2 load generator
(src/wrk.c, src/wrk.h, src/net.h) against its natural-language specification.

The embedding below translates the pacing, batching, latency-recording,
read-loop, TLS-retry, warmup-barrier, aggregation and error-recovery logic
of src/wrk.c into Lean definitions.  Machine `uint64_t` subtraction is
modelled explicitly modulo `2 ^ 64` where a wrap is reachable; `double`
arithmetic is modelled over `ℚ` (the C code converts the quotient back to
`uint64_t`, i.e. takes the floor).
-/

namespace Wrk2

/-- RECVBUF from src/wrk.h line 21. -/
def RECVBUF : ℕ := 8192

/-- Size of the `uint64_t` value space. -/
def U64 : ℕ := 2 ^ 64

/-- Wrapping `uint64_t` subtraction `a - b` for `a b < U64`. -/
def u64_sub (a b : ℕ) : ℕ := (a + U64 - b % U64) % U64

/-- On in-range, ordered arguments the wrapping subtraction is plain
truncated subtraction. -/
theorem u64_sub_eq {a b : ℕ} (h : b ≤ a) (ha : a < U64) : u64_sub a b = a - b := by
  have hb : b < U64 := lt_of_le_of_lt h ha
  unfold u64_sub
  rw [Nat.mod_eq_of_lt hb]
  have h1 : a + U64 - b = (a - b) + U64 := by omega
  rw [h1, Nat.add_mod_right]
  exact Nat.mod_eq_of_lt (lt_of_le_of_lt (Nat.sub_le a b) ha)

/-- The C idiom `(uint64_t)(a / q)` for a non-negative count `a` and a
`double` rate `q`, modelled over `ℚ`: truncation of a non-negative quotient
is its floor. -/
def floorDiv (a : ℕ) (q : ℚ) : ℕ := (Int.floor ((a : ℚ) / q)).toNat

/-- Dividing by a unit rate is the identity. -/
theorem floorDiv_one (a : ℕ) : floorDiv a 1 = a := by
  unfold floorDiv
  rw [div_one, Int.floor_natCast, Int.toNat_natCast]

/-- Per-connection state of src/wrk.h (`struct connection`), restricted to
the fields read or written by the pacing, batching and latency-recording
code of src/wrk.c. -/
structure connection where
  thread_start : ℕ
  throughput : ℚ
  catch_up_throughput : ℚ
  complete : ℕ
  caught_up : Bool
  catch_up_start_time : ℕ
  complete_at_catch_up_start : ℕ
  complete_at_last_batch_start : ℕ
  start : ℕ
  pending : ℕ
  has_pending : Bool
  actual_latency_start : ℕ
  latest_should_send_time : ℕ
  latest_expected_start : ℕ
deriving DecidableEq

/-- `usec_to_next_send` (src/wrk.c lines 643-682).  Returns the updated
connection and the microsecond wait (0 means send now). -/
def usec_to_next_send (c : connection) (now : ℕ) : connection × ℕ :=
  let next_start_time := c.thread_start + floorDiv c.complete c.throughput
  if now < next_start_time then
    ({ c with caught_up := true }, next_start_time - now)
  else
    let c1 :=
      if c.caught_up = true then
        { c with caught_up := false, catch_up_start_time := now,
                 complete_at_catch_up_start := c.complete }
      else c
    let complete_since_catch_up_start :=
      u64_sub c1.complete c1.complete_at_catch_up_start
    let next2 := c1.catch_up_start_time +
      floorDiv complete_since_catch_up_start c1.catch_up_throughput
    if now < next2 then (c1, next2 - now)
    else ({ c1 with latest_should_send_time := now, latest_expected_start := next2 }, 0)

/-- Spec-side pacer following the words of the specification's two-schedule
rule (spec §4.5) exactly: primary schedule `T_next = thread_start +
complete/ρ`, a fall-behind snapshot on leaving `caught_up`, a secondary
schedule at the catch-up throughput, and — per spec §4.5's send-now line
"record `latest_should_send_time = now`, `latest_expected_start = T_next`"
— the recorded expected start is the primary `T_next`.  The in-flight count
since the snapshot is written with plain truncated subtraction, as the spec
does. -/
def spec_pacer (c : connection) (now : ℕ) : connection × ℕ :=
  let tNext := c.thread_start + floorDiv c.complete c.throughput
  if now < tNext then
    ({ c with caught_up := true }, tNext - now)
  else
    let c1 :=
      if c.caught_up = true then
        { c with caught_up := false, catch_up_start_time := now,
                 complete_at_catch_up_start := c.complete }
      else c
    let tNext2 := c1.catch_up_start_time +
      floorDiv (c1.complete - c1.complete_at_catch_up_start) c1.catch_up_throughput
    if now < tNext2 then (c1, tNext2 - now)
    else ({ c1 with latest_should_send_time := now, latest_expected_start := tNext }, 0)

/-- Claim-side pacer as amended: identical to `spec_pacer` except that the
send-now branch records `latest_expected_start := tNext2`, the reassigned
`next_start_time` of the catch-up schedule — which is what the source
stores (src/wrk.c lines 667-678). -/
def amended_pacer (c : connection) (now : ℕ) : connection × ℕ :=
  let tNext := c.thread_start + floorDiv c.complete c.throughput
  if now < tNext then
    ({ c with caught_up := true }, tNext - now)
  else
    let c1 :=
      if c.caught_up = true then
        { c with caught_up := false, catch_up_start_time := now,
                 complete_at_catch_up_start := c.complete }
      else c
    let tNext2 := c1.catch_up_start_time +
      floorDiv (c1.complete - c1.complete_at_catch_up_start) c1.catch_up_throughput
    if now < tNext2 then (c1, tNext2 - now)
    else ({ c1 with latest_should_send_time := now, latest_expected_start := tNext2 }, 0)

/-- Example connection for the pacer theorems: behind the primary schedule
(`T_next = 10`) with a catch-up snapshot at 2 completions. -/
def c1ex : connection :=
  { thread_start := 0, throughput := 1, catch_up_throughput := 2, complete := 10,
    caught_up := false, catch_up_start_time := 0, complete_at_catch_up_start := 2,
    complete_at_last_batch_start := 0, start := 0, pending := 0, has_pending := false,
    actual_latency_start := 0, latest_should_send_time := 0, latest_expected_start := 0 }

/-- Counterexample to C1 as induced by spec §4.5: at `c1ex` with
`now = 20`, both schedules are due (`T_next = 10`, catch-up next start
`T'_next = 0 + (10 - 2)/2 = 4`), and the source records
`latest_expected_start = 4` — the reassigned catch-up `next_start_time` —
while the spec's rule records the primary `T_next = 10`; the pacer
therefore differs from the spec-side rule. -/
theorem c1_counterexample :
    (usec_to_next_send c1ex 20).1.latest_expected_start = 4 ∧
    (spec_pacer c1ex 20).1.latest_expected_start = 10 ∧
    usec_to_next_send c1ex 20 ≠ spec_pacer c1ex 20 := by
  have hfd : floorDiv 8 2 = 4 := by
    unfold floorDiv
    norm_num
    rfl
  have hsub : u64_sub 10 2 = 8 := by
    unfold u64_sub U64
    norm_num
  have hu : usec_to_next_send c1ex 20 =
      ({ c1ex with latest_should_send_time := 20, latest_expected_start := 4 }, 0) := by
    unfold usec_to_next_send
    norm_num [c1ex, floorDiv_one, hsub, hfd]
  have hs : spec_pacer c1ex 20 =
      ({ c1ex with latest_should_send_time := 20, latest_expected_start := 10 }, 0) := by
    unfold spec_pacer
    norm_num [c1ex, floorDiv_one, hsub, hfd]
  refine ⟨by simp [hu], by simp [hs], ?_⟩
  rw [hu, hs]
  intro heq
  have h2 := congrArg (fun p : connection × ℕ => p.1.latest_expected_start) heq
  simp at h2

/-- C1 (amended): for every connection, the pacer decision of
`usec_to_next_send` follows the two-schedule rule: if the primary expected
start `T_next = thread_start + complete/throughput` is in the future,
`caught_up` is set, nothing is sent and `T_next - now` is returned;
otherwise a first fall-behind snapshots
`catch_up_start_time`/`complete_at_catch_up_start`, the secondary start
`T'_next` is computed from the catch-up throughput, and the function either
returns the residual wait or records `latest_should_send_time = now` and
`latest_expected_start = T'_next` — the catch-up next start, not the
spec's primary `T_next` — and returns 0.  Stated as a refinement: the
source function equals the amended spec-side pacer whenever the snapshot is
consistent (`complete_at_catch_up_start ≤ complete`) and the counter is in
`uint64_t` range. -/
theorem c1_pacer_two_schedule (c : connection) (now : ℕ)
    (hle : c.complete_at_catch_up_start ≤ c.complete) (hlt : c.complete < U64) :
    usec_to_next_send c now = amended_pacer c now := by
  unfold usec_to_next_send amended_pacer
  cases hcb : c.caught_up <;>
    simp [hcb, u64_sub_eq hle hlt, u64_sub_eq (le_refl c.complete) hlt]

/-- Witness for the amended C1 at a concrete connection and time. -/
theorem c1_pacer_two_schedule_witness :
    c1ex.complete_at_catch_up_start ≤ c1ex.complete ∧ c1ex.complete < U64 ∧
      usec_to_next_send c1ex 3 = amended_pacer c1ex 3 :=
  ⟨by decide, by decide, c1_pacer_two_schedule c1ex 3 (by decide) (by decide)⟩

/-- The millisecond delay `round((time_usec_to_wait / 1000.0L) + 0.5)`
computed identically in `delay_request` (src/wrk.c line 688) and
`socket_writeable` (src/wrk.c line 859), over `ℚ`. -/
def msec_delay (time_usec_to_wait : ℕ) : ℤ :=
  round ((time_usec_to_wait : ℚ) / 1000 + 1 / 2)

/-- `delay_request` (src/wrk.c lines 684-692): re-arm the timer with the
millisecond delay while the pacer still asks for a wait, otherwise
re-create the WRITABLE event and stop the timer (`none` = `AE_NOMORE`).
Returns (connection, timer re-arm value, WRITABLE event created). -/
def delay_request_model (c : connection) (now : ℕ) : connection × Option ℤ × Bool :=
  let r := usec_to_next_send c now
  if r.2 ≠ 0 then (r.1, some (msec_delay r.2), false)
  else (r.1, none, true)

/-- The pacing prefix of `socket_writeable` (src/wrk.c lines 856-866) for a
connection with no partial write: when the pacer asks for a wait, the
WRITABLE event is dropped and a `delay_request` timer is armed with the
millisecond delay (`some d`); otherwise the send proceeds (`none`). -/
def socket_writeable_pace (c : connection) (now : ℕ) : connection × Option ℤ :=
  let r := usec_to_next_send c now
  if r.2 ≠ 0 then (r.1, some (msec_delay r.2)) else (r.1, none)

/-- A positive microsecond wait always yields a millisecond delay of at
least one. -/
theorem msec_delay_pos (w : ℕ) (h : 0 < w) : 1 ≤ msec_delay w := by
  unfold msec_delay
  rw [round_eq, Int.le_floor]
  have h0 : (0 : ℚ) ≤ (w : ℚ) / 1000 := by positivity
  push_cast
  linarith

/-- C10: every timer delay armed by `delay_request` or by the pacing branch
of `socket_writeable` is at least 1 ms, so a connection that is not yet due
to send never arms or re-arms a zero-delay timer. -/
theorem c10_min_delay (c : connection) (now : ℕ) (d : ℤ)
    (h : (delay_request_model c now).2.1 = some d ∨
         (socket_writeable_pace c now).2 = some d) :
    1 ≤ d := by
  rcases h with h | h
  · by_cases hw : (usec_to_next_send c now).2 = 0
    · simp [delay_request_model, hw] at h
    · simp [delay_request_model, hw] at h
      exact h ▸ msec_delay_pos _ (Nat.pos_of_ne_zero hw)
  · by_cases hw : (usec_to_next_send c now).2 = 0
    · simp [socket_writeable_pace, hw] at h
    · simp [socket_writeable_pace, hw] at h
      exact h ▸ msec_delay_pos _ (Nat.pos_of_ne_zero hw)

/-- Example connection used to witness the minimum-delay theorem. -/
def c10ex : connection :=
  { thread_start := 0, throughput := 1, catch_up_throughput := 2, complete := 10,
    caught_up := true, catch_up_start_time := 0, complete_at_catch_up_start := 0,
    complete_at_last_batch_start := 0, start := 0, pending := 0, has_pending := false,
    actual_latency_start := 0, latest_should_send_time := 0, latest_expected_start := 0 }

/-- Witness for C10: at time 3 the pacer asks to wait 7 µs and the armed
delay is exactly 1 ms. -/
theorem c10_min_delay_witness :
    (delay_request_model c10ex 3).2.1 = some 1 ∧ (1 : ℤ) ≤ 1 := by
  have hsend : usec_to_next_send c10ex 3 = ({ c10ex with caught_up := true }, 7) := by
    unfold usec_to_next_send
    norm_num [c10ex, floorDiv_one]
  have hmd : msec_delay 7 = 1 := by
    unfold msec_delay
    rw [round_eq, Int.floor_eq_iff]
    norm_num
  have h1 : (delay_request_model c10ex 3).2.1 = some 1 := by
    simp only [delay_request_model]
    rw [hsend]
    norm_num [hmd]
  exact ⟨h1, c10_min_delay c10ex 3 1 (Or.inl h1)⟩

/-- Modelled from the spec: the HDR histogram recorder (the repository's
hdr_histogram implementation is not under src/) admits only non-negative
values (spec §3 invariant 8, §4.4).  A histogram is modelled as the list of
its admitted values; recording a negative value admits nothing. -/
def hdr_record_value (hist : List ℤ) (v : ℤ) : List ℤ :=
  if 0 ≤ v then v :: hist else hist

/-- The corrected-latency slice of `response_complete` (src/wrk.c lines
713-769): the deadline check, the completion-count increment, the
expected-start latency computation, the batch bookkeeping and the histogram
record call.  Returns the connection, whether a WRITABLE event was created,
the corrected histogram, and whether the loop was stopped.  The `int64_t`
timing is modelled over `ℤ` (faithful while `|now - expected_start| < 2^63`).
When the timing is negative the source (lines 733-753) prints diagnostics,
recomputing `expected_latency_start` from the advanced completion count into
the printout only; the value passed to `hdr_record_value` below is still the
original timing, exactly as in the source. -/
def response_complete_model (c : connection) (now stop_at : ℕ)
    (record_all : Bool) (hist : List ℤ) :
    connection × Bool × List ℤ × Bool :=
  if stop_at ≤ now then (c, false, hist, true)
  else
    let c1 := { c with complete := c.complete + 1 }
    let expected_latency_timing : ℤ :=
      (now : ℤ) -
        ((c1.thread_start + floorDiv c1.complete_at_last_batch_start c1.throughput : ℕ) : ℤ)
    let c2 := { c1 with latest_should_send_time := 0, latest_expected_start := 0,
                        pending := u64_sub c1.pending 1 }
    let c3 := if c2.pending = 0 then { c2 with has_pending := false } else c2
    let writable_created : Bool := if c2.pending = 0 then true else false
    let hist2 :=
      if record_all = true ∨ c3.has_pending = false then
        hdr_record_value hist expected_latency_timing
      else hist
    (c3, writable_created, hist2, false)

/-- Concrete connection state exhibiting a negative corrected latency:
the batch-start snapshot (1000) is ahead of `now` (500). -/
def c2ex : connection :=
  { thread_start := 0, throughput := 1, catch_up_throughput := 2, complete := 400,
    caught_up := true, catch_up_start_time := 0, complete_at_catch_up_start := 0,
    complete_at_last_batch_start := 1000, start := 0, pending := 1, has_pending := true,
    actual_latency_start := 0, latest_should_send_time := 0, latest_expected_start := 0 }

/-- Counterexample to C2 as stated: at `c2ex` with `now = 500` the computed
corrected latency is negative (-500), the value recomputed from the current
completion count (401) would be 99, yet after `response_complete` the
histogram is still empty — the recomputed value is never recorded; the
recomputation feeds only the diagnostic printout. -/
theorem c2_counterexample :
    ((500 : ℤ) - ((c2ex.thread_start + floorDiv c2ex.complete_at_last_batch_start c2ex.throughput : ℕ) : ℤ) = -500) ∧
    ((500 : ℤ) - ((c2ex.thread_start + floorDiv (c2ex.complete + 1) c2ex.throughput : ℕ) : ℤ) = 99) ∧
    (response_complete_model c2ex 500 1000000 true []).2.2.1 = [] := by
  refine ⟨?_, ?_, ?_⟩
  · norm_num [c2ex, floorDiv_one]
  · norm_num [c2ex, floorDiv_one]
  · simp only [response_complete_model, c2ex]
    norm_num [floorDiv_one, u64_sub_eq (show 1 ≤ 1 by norm_num) (show 1 < U64 by norm_num [U64]),
      hdr_record_value]

/-- After `response_complete` the corrected histogram is either untouched or
extended with the expected-start timing, and only when that timing is
non-negative. -/
theorem response_complete_hist_cases (c : connection) (now stop_at : ℕ)
    (record_all : Bool) (hist : List ℤ) :
    (response_complete_model c now stop_at record_all hist).2.2.1 = hist ∨
    ((response_complete_model c now stop_at record_all hist).2.2.1 =
        ((now : ℤ) -
          ((c.thread_start + floorDiv c.complete_at_last_batch_start c.throughput : ℕ) : ℤ)) :: hist ∧
      (0 : ℤ) ≤ (now : ℤ) -
        ((c.thread_start + floorDiv c.complete_at_last_batch_start c.throughput : ℕ) : ℤ)) := by
  unfold response_complete_model hdr_record_value
  by_cases hstop : stop_at ≤ now
  · simp [hstop]
  · simp only [hstop, if_false]
    by_cases hpend : u64_sub c.pending 1 = 0 <;>
      by_cases hneg :
        (0 : ℤ) ≤ (now : ℤ) -
          ((c.thread_start + floorDiv c.complete_at_last_batch_start c.throughput : ℕ) : ℤ) <;>
        by_cases hra : record_all = true <;>
          by_cases hhp : c.has_pending = false <;>
            simp_all

/-- C2 (amended): `response_complete` passes the original expected-start
timing to the histogram record call — on the negative-latency branch the
recomputation from the current completion count is diagnostic-only — and
the histogram never admits a negative value, so a response whose corrected
timing is negative records nothing. -/
theorem c2_no_negative_admitted (c : connection) (now stop_at : ℕ)
    (record_all : Bool) (hist : List ℤ) (h : ∀ v ∈ hist, 0 ≤ v) :
    (∀ v ∈ (response_complete_model c now stop_at record_all hist).2.2.1, 0 ≤ v) ∧
    ((now : ℤ) -
        ((c.thread_start + floorDiv c.complete_at_last_batch_start c.throughput : ℕ) : ℤ) < 0 →
      (response_complete_model c now stop_at record_all hist).2.2.1 = hist) := by
  rcases response_complete_hist_cases c now stop_at record_all hist with hc | ⟨hc, ht⟩
  · refine ⟨?_, fun _ => hc⟩
    rw [hc]
    exact h
  · refine ⟨?_, fun hlt => absurd ht (not_le.mpr hlt)⟩
    rw [hc]
    intro v hv
    rcases List.mem_cons.mp hv with rfl | hv
    · exact ht
    · exact h v hv

/-- Witness for the amended C2 at the concrete negative-latency state. -/
theorem c2_no_negative_admitted_witness :
    (∀ v ∈ ([] : List ℤ), (0 : ℤ) ≤ v) ∧
    ((∀ v ∈ (response_complete_model c2ex 500 1000000 true []).2.2.1, 0 ≤ v) ∧
     ((500 : ℤ) -
         ((c2ex.thread_start + floorDiv c2ex.complete_at_last_batch_start c2ex.throughput : ℕ) : ℤ) < 0 →
       (response_complete_model c2ex 500 1000000 true []).2.2.1 = [])) :=
  ⟨by simp, c2_no_negative_admitted c2ex 500 1000000 true [] (by simp)⟩

/-- Transport status codes of src/net.h lines 9-13. -/
inductive SockStatus
  | ok
  | error
  | retry
deriving DecidableEq

/-- One transport read observed by the read loop of `socket_readable`: the
status returned by `sock.read`, the byte count `n`, whether
`http_parser_execute` consumed all `n` bytes, and the value of
`sock.readable` after the read. -/
structure ReadEvent where
  status : SockStatus
  n : ℕ
  parse_ok : Bool
  readable : ℕ
deriving DecidableEq

/-- How the read loop of `socket_readable` exits. -/
inductive ReadExit
  | done
  | fail
  | retry
  | pending
deriving DecidableEq

/-- The do/while read loop of `socket_readable` (src/wrk.c lines 908-928)
over a script of transport read results.  Returns the exit kind, the bytes
accumulated into `thread->bytes`, and the number of `sock.read` calls
performed.  The loop iterates again only while `n == RECVBUF &&
sock.readable(c) > 0` (line 921); `ReadExit.pending` marks a script that
ran out while the loop still wanted to read. -/
def socket_readable_loop : List ReadEvent → ℕ → ℕ → ReadExit × ℕ × ℕ
  | [], bytes, reads => (ReadExit.pending, bytes, reads)
  | e :: rest, bytes, reads =>
    match e.status with
    | SockStatus.error => (ReadExit.fail, bytes, reads + 1)
    | SockStatus.retry => (ReadExit.retry, bytes, reads + 1)
    | SockStatus.ok =>
      if e.parse_ok = false then (ReadExit.fail, bytes, reads + 1)
      else if e.n = RECVBUF ∧ 0 < e.readable then
        socket_readable_loop rest (bytes + e.n) (reads + 1)
      else (ReadExit.done, bytes + e.n, reads + 1)

/-- Counterexample to C3 as stated: after a successful 100-byte read (which
did not fill the 8192-byte buffer) with `readable() = 5 > 0`, the claimed
disjunctive condition holds, yet the loop performs no second read — it
exits after one read, leaving the next scripted read untouched. -/
theorem c3_counterexample :
    ((100 : ℕ) = RECVBUF ∨ 0 < (5 : ℕ)) ∧
    socket_readable_loop
        [⟨SockStatus.ok, 100, true, 5⟩, ⟨SockStatus.ok, 8192, true, 0⟩] 0 0 =
      (ReadExit.done, 100, 1) := by
  constructor
  · exact Or.inr (by norm_num)
  · decide

/-- C3 (amended): after a successful read of `n` bytes that parsed fully,
the read loop iterates again if and only if the read filled the socket
buffer (`n = RECVBUF`) AND the transport reports `readable() > 0`;
otherwise it returns with the bytes consumed. -/
theorem c3_read_loop_conjunction (e : ReadEvent) (rest : List ReadEvent)
    (bytes reads : ℕ) (hok : e.status = SockStatus.ok) (hp : e.parse_ok = true) :
    socket_readable_loop (e :: rest) bytes reads =
      (if e.n = RECVBUF ∧ 0 < e.readable then
        socket_readable_loop rest (bytes + e.n) (reads + 1)
      else (ReadExit.done, bytes + e.n, reads + 1)) := by
  rcases e with ⟨st, n, p, r⟩
  cases hok
  cases hp
  simp [socket_readable_loop]

/-- Witness for the amended C3 at a concrete buffer-filling read. -/
theorem c3_read_loop_conjunction_witness :
    socket_readable_loop [⟨SockStatus.ok, 8192, true, 3⟩] 0 0 =
      (if (8192 : ℕ) = RECVBUF ∧ 0 < (3 : ℕ) then
        socket_readable_loop [] (0 + 8192) (0 + 1)
      else (ReadExit.done, 0 + 8192, 0 + 1)) :=
  c3_read_loop_conjunction ⟨SockStatus.ok, 8192, true, 3⟩ [] 0 0 rfl rfl

/-- A readiness-event set (`AE_READABLE`/`AE_WRITABLE` bits of an event-loop
mask).  src/wrk.c manipulates these masks only through the two symbolic
bits, so the set is modelled as a pair of flags. -/
structure EventMask where
  readable : Bool
  writable : Bool
deriving DecidableEq

/-- The RETRY branch of `socket_connected` (src/wrk.c lines 794-813): from
the currently subscribed `connect_mask` and the retry hints
`E_WANT_READ`/`E_WANT_WRITE`, compute the event bits to add, the bits to
delete, and the resulting `connect_mask` after `aeDeleteFileEvent` of the
deleted bits and `aeCreateFileEvent` of the added bits. -/
def retry_adjust (connect_mask : EventMask) (want_read want_write : Bool) :
    EventMask × EventMask × EventMask :=
  let add : EventMask :=
    { readable := want_read && !connect_mask.readable,
      writable := want_write && !connect_mask.writable }
  let del : EventMask :=
    { readable := !want_read && connect_mask.readable,
      writable := !want_write && connect_mask.writable }
  let after_del : EventMask :=
    { readable := connect_mask.readable && !del.readable,
      writable := connect_mask.writable && !del.writable }
  let after_add : EventMask :=
    { readable := after_del.readable || add.readable,
      writable := after_del.writable || add.writable }
  (add, del, after_add)

/-- The RETRY branch acting on the actually subscribed event set alongside
`connect_mask`: the subscribed set receives the same deletions and
additions the mask does. -/
def retry_resubscribe (subscribed connect_mask : EventMask)
    (want_read want_write : Bool) : EventMask × EventMask :=
  let r := retry_adjust connect_mask want_read want_write
  let subscribed2 : EventMask :=
    { readable := (subscribed.readable && !r.2.1.readable) || r.1.readable,
      writable := (subscribed.writable && !r.2.1.writable) || r.1.writable }
  (subscribed2, r.2.2)

/-- C4: on a RETRY from `connect`, the handler leaves `connect_mask` — and,
when the subscription agreed with `connect_mask` on entry, the subscribed
readiness set — equal to exactly the hinted set: READABLE iff `want_read`,
WRITABLE iff `want_write`, never a superset; and no bit is both added and
deleted. -/
theorem c4_retry_mask_exact (subscribed connect_mask : EventMask)
    (want_read want_write : Bool) (h : subscribed = connect_mask) :
    (retry_adjust connect_mask want_read want_write).2.2 =
        ⟨want_read, want_write⟩ ∧
    ((retry_adjust connect_mask want_read want_write).1.readable &&
        (retry_adjust connect_mask want_read want_write).2.1.readable) = false ∧
    ((retry_adjust connect_mask want_read want_write).1.writable &&
        (retry_adjust connect_mask want_read want_write).2.1.writable) = false ∧
    retry_resubscribe subscribed connect_mask want_read want_write =
        (⟨want_read, want_write⟩, ⟨want_read, want_write⟩) := by
  subst h
  rcases subscribed with ⟨mr, mw⟩
  cases mr <;> cases mw <;> cases want_read <;> cases want_write <;> decide

/-- Witness for C4 at a concrete mask and hint set. -/
theorem c4_retry_mask_exact_witness :
    (retry_adjust ⟨true, true⟩ true false).2.2 = ⟨true, false⟩ ∧
    ((retry_adjust ⟨true, true⟩ true false).1.readable &&
        (retry_adjust ⟨true, true⟩ true false).2.1.readable) = false ∧
    ((retry_adjust ⟨true, true⟩ true false).1.writable &&
        (retry_adjust ⟨true, true⟩ true false).2.1.writable) = false ∧
    retry_resubscribe ⟨true, true⟩ ⟨true, true⟩ true false =
        (⟨true, false⟩, ⟨true, false⟩) :=
  c4_retry_mask_exact ⟨true, true⟩ ⟨true, true⟩ true false rfl

/-- Default warmup timeout computation of `thread_main` (src/wrk.c lines
392-399): `connections * 600000 / 350000` in `uint64_t` arithmetic, floored
at 1000 ms. -/
def default_warmup_timeout (connections : ℕ) : ℕ :=
  let t := connections * 600000 % U64 / 350000
  if t < 1000 then 1000 else t

/-- Warmup timer arming of `thread_main` (src/wrk.c lines 390-401): with
warmup enabled the timer delay is the configured `warmup_timeout`, or the
default when that is zero; without warmup no timer is armed. -/
def warmup_timer_delay (warmup : Bool) (cfg_warmup_timeout connections : ℕ) :
    Option ℕ :=
  if warmup = true then
    some (if cfg_warmup_timeout = 0 then default_warmup_timeout connections
          else cfg_warmup_timeout)
  else none

/-- C5: with warmup enabled and no configured warmup timeout, the warmup
timer is armed with `max(1000, connections * 600000 / 350000)` milliseconds,
integer division over the total configured connection count. -/
theorem c5_default_warmup_timeout (connections : ℕ)
    (h : connections * 600000 < U64) :
    warmup_timer_delay true 0 connections =
      some (max 1000 (connections * 600000 / 350000)) := by
  unfold warmup_timer_delay default_warmup_timeout
  rw [Nat.mod_eq_of_lt h]
  norm_num [Nat.max_def]
  split_ifs <;> omega

/-- Witness for C5 at 700000 configured connections (default timeout
1200000 ms). -/
theorem c5_default_warmup_timeout_witness :
    700000 * 600000 < U64 ∧
    warmup_timer_delay true 0 700000 =
      some (max 1000 (700000 * 600000 / 350000)) :=
  ⟨by norm_num [U64], c5_default_warmup_timeout 700000 (by norm_num [U64])⟩

/-- One step of the `phase_normal_start` minimum scan in `main` (src/wrk.c
lines 252-254): the accumulator is replaced while it is still zero, or when
the worker recorded a smaller nonzero timestamp. -/
def pns_step (m t : ℕ) : ℕ := if m = 0 ∨ (t ≠ 0 ∧ t < m) then t else m

/-- The join loop of `main` (src/wrk.c lines 245-255) computing
`phase_normal_start_min` over the workers' `phase_normal_start` values. -/
def phase_normal_start_min (ts : List ℕ) : ℕ := ts.foldl pns_step 0

/-- The runtime-base selection of `main` (src/wrk.c lines 257-260): keep
the initial `start` unless some worker recorded a transition to NORMAL. -/
def aggregated_start (start0 : ℕ) (ts : List ℕ) : ℕ :=
  if phase_normal_start_min ts ≠ 0 then phase_normal_start_min ts else start0

/-- Fold invariant of the minimum scan, generalized over the accumulator:
the result is a lower bound on every nonzero entry, is bounded by a nonzero
accumulator, comes from the accumulator or the list when nonzero, and is
zero only if the accumulator was zero and every entry is zero. -/
theorem pns_fold_aux (ts : List ℕ) : ∀ acc : ℕ,
    (∀ t ∈ ts, t ≠ 0 → ts.foldl pns_step acc ≤ t) ∧
    (acc ≠ 0 → ts.foldl pns_step acc ≤ acc) ∧
    (ts.foldl pns_step acc ≠ 0 →
      ts.foldl pns_step acc = acc ∨ ts.foldl pns_step acc ∈ ts) ∧
    (ts.foldl pns_step acc = 0 → acc = 0 ∧ ∀ t ∈ ts, t = 0) := by
  induction ts with
  | nil => intro acc; simp
  | cons t rest ih =>
    intro acc
    obtain ⟨ih1, ih2, ih3, ih4⟩ := ih (pns_step acc t)
    simp only [List.foldl_cons, List.mem_cons]
    by_cases hc : acc = 0 ∨ (t ≠ 0 ∧ t < acc)
    · have hstep : pns_step acc t = t := if_pos hc
      simp only [hstep] at ih1 ih2 ih3 ih4 ⊢
      refine ⟨?_, ?_, ?_, ?_⟩
      · rintro u (rfl | hu) hne
        · exact ih2 hne
        · exact ih1 u hu hne
      · intro hacc
        rcases hc with rfl | ⟨htne, htlt⟩
        · exact absurd rfl hacc
        · exact le_trans (ih2 htne) (le_of_lt htlt)
      · intro hne
        rcases ih3 hne with hfa | hfm
        · exact Or.inr (Or.inl hfa)
        · exact Or.inr (Or.inr hfm)
      · intro hz
        obtain ⟨hz1, hz2⟩ := ih4 hz
        have hacc0 : acc = 0 := by
          rcases hc with h0 | ⟨htne, _⟩
          · exact h0
          · exact absurd hz1 htne
        refine ⟨hacc0, fun u hu => ?_⟩
        rcases hu with rfl | hu
        · exact hz1
        · exact hz2 u hu
    · have hstep : pns_step acc t = acc := if_neg hc
      push_neg at hc
      obtain ⟨hacc, hct⟩ := hc
      simp only [hstep] at ih1 ih2 ih3 ih4 ⊢
      refine ⟨?_, ?_, ?_, ?_⟩
      · rintro u (rfl | hu) hne
        · exact le_trans (ih2 hacc) (hct hne)
        · exact ih1 u hu hne
      · intro _
        exact ih2 hacc
      · intro hne
        rcases ih3 hne with hfa | hfm
        · exact Or.inl hfa
        · exact Or.inr (Or.inr hfm)
      · intro hz
        exact absurd (ih4 hz).1 hacc

/-- C8: after joining, the aggregated runtime base equals the minimum of
the nonzero `phase_normal_start` timestamps when at least one worker
recorded a transition to NORMAL, and the orchestrator's initial `start`
otherwise; zero entries never influence the minimum. -/
theorem c8_aggregated_start (start0 : ℕ) (ts : List ℕ) :
    ((∀ t ∈ ts, t = 0) → aggregated_start start0 ts = start0) ∧
    ((∃ t ∈ ts, t ≠ 0) →
      aggregated_start start0 ts ∈ ts ∧ aggregated_start start0 ts ≠ 0 ∧
      ∀ t ∈ ts, t ≠ 0 → aggregated_start start0 ts ≤ t) := by
  obtain ⟨h1, h2, h3, h4⟩ := pns_fold_aux ts 0
  unfold aggregated_start phase_normal_start_min
  constructor
  · intro hall
    have hz : ts.foldl pns_step 0 = 0 := by
      by_contra hne
      rcases h3 hne with hfa | hfm
      · exact hne hfa
      · exact hne (hall _ hfm)
    simp [hz]
  · rintro ⟨t, ht, htne⟩
    have hne : ts.foldl pns_step 0 ≠ 0 := by
      intro hz
      exact htne ((h4 hz).2 t ht)
    rw [if_pos hne]
    refine ⟨?_, hne, fun u hu hune => h1 u hu hune⟩
    rcases h3 hne with hfa | hfm
    · exact absurd hfa hne
    · exact hfm

/-- Witness for C8: workers `[0, 7, 5, 0]` yield base 5, ignoring zeros. -/
theorem c8_aggregated_start_witness :
    aggregated_start 42 [0, 7, 5, 0] ∈ [0, 7, 5, 0] ∧
    aggregated_start 42 [0, 7, 5, 0] ≠ 0 ∧
    ∀ t ∈ [0, 7, 5, 0], t ≠ 0 → aggregated_start 42 [0, 7, 5, 0] ≤ t :=
  (c8_aggregated_start 42 [0, 7, 5, 0]).2 ⟨7, by norm_num, by norm_num⟩

/-- Connection lifecycle facts tracked by the error-recovery path: the
per-kind error counters, the registered file events, the socket state,
whether a fresh connect was initiated on the slot, and whether the run
(the process and its event loop) is still alive. -/
structure ConnLifecycle where
  errors_connect : ℕ
  errors_read : ℕ
  errors_write : ℕ
  errors_reconnect : ℕ
  ev_readable : Bool
  ev_writable : Bool
  sock_open : Bool
  connect_initiated : Bool
  loop_running : Bool
deriving DecidableEq

/-- `connect_socket` (src/wrk.c lines 475-516) as seen by the recovery
path.  `socket_ok` abstracts the `socket()` call (lines 482-487): when it
fails the source prints an error and calls `exit(1)`, aborting the whole
process.  `connect_ok` abstracts the remaining failure points (a
synchronous `connect` errno other than EINPROGRESS, or `aeCreateFileEvent`
failing): those reach the `error:` label (lines 512-515), increment
`errors.connect`, close the fd, and return -1 with the run continuing.  On
success the socket is open and `socket_connected` is registered for
READABLE|WRITABLE. -/
def connect_socket_model (socket_ok connect_ok : Bool) (s : ConnLifecycle) :
    ConnLifecycle :=
  if socket_ok = false then
    { s with sock_open := false, loop_running := false }
  else if connect_ok = true then
    { s with sock_open := true, connect_initiated := true,
             ev_readable := true, ev_writable := true }
  else
    { s with errors_connect := s.errors_connect + 1, connect_initiated := true,
             sock_open := false }

/-- The teardown half of `reconnect_socket` (src/wrk.c lines 519-522):
`aeDeleteFileEvent(WRITABLE|READABLE)`, `sock.close`, `close(fd)` and the
reconnect counter. -/
def reconnect_teardown (s : ConnLifecycle) : ConnLifecycle :=
  { s with ev_readable := false, ev_writable := false, sock_open := false,
           errors_reconnect := s.errors_reconnect + 1 }

/-- `reconnect_socket` (src/wrk.c lines 518-524): teardown then a fresh
connect on the same connection slot. -/
def reconnect_socket_model (socket_ok connect_ok : Bool) (s : ConnLifecycle) :
    ConnLifecycle :=
  connect_socket_model socket_ok connect_ok (reconnect_teardown s)

/-- The `error:` label of `socket_writeable` (src/wrk.c lines 902-904). -/
def socket_writeable_error_model (socket_ok connect_ok : Bool) (s : ConnLifecycle) :
    ConnLifecycle :=
  reconnect_socket_model socket_ok connect_ok
    { s with errors_write := s.errors_write + 1 }

/-- The `error:` label of `socket_readable` (src/wrk.c lines 925-927). -/
def socket_readable_error_model (socket_ok connect_ok : Bool) (s : ConnLifecycle) :
    ConnLifecycle :=
  reconnect_socket_model socket_ok connect_ok
    { s with errors_read := s.errors_read + 1 }

/-- Concrete healthy connection state before a transport ERROR. -/
def c9ex : ConnLifecycle :=
  { errors_connect := 0, errors_read := 0, errors_write := 0, errors_reconnect := 0,
    ev_readable := true, ev_writable := true, sock_open := true,
    connect_initiated := false, loop_running := true }

/-- Counterexample to C9 as stated: recovery from a transport ERROR is not
unconditional.  When the `socket()` call of the recovery's fresh connect
fails, `connect_socket` calls `exit(1)` (src/wrk.c lines 483-487) and the
run aborts. -/
theorem c9_counterexample :
    c9ex.loop_running = true ∧
    (socket_writeable_error_model false true c9ex).loop_running = false := by
  constructor <;> rfl

/-- C9 (amended): a transport ERROR in the write or read handler is
recovered locally whenever the `socket()` call of the fresh connect
succeeds: exactly the matching kind-counter is incremented by one, the
handlers factor through the teardown (which deletes both file events and
closes the socket), `errors.reconnect` is incremented by exactly one, a
fresh connect is initiated on the same slot, and the run keeps going.
(When `socket()` fails the source instead aborts the whole process with
`exit(1)`; see the counterexample.) -/
theorem c9_error_recovery (socket_ok connect_ok : Bool) (s : ConnLifecycle)
    (hsock : socket_ok = true) :
    ((socket_writeable_error_model socket_ok connect_ok s).errors_write = s.errors_write + 1 ∧
     (socket_writeable_error_model socket_ok connect_ok s).errors_read = s.errors_read ∧
     (socket_writeable_error_model socket_ok connect_ok s).errors_reconnect = s.errors_reconnect + 1 ∧
     (socket_writeable_error_model socket_ok connect_ok s).connect_initiated = true ∧
     (socket_writeable_error_model socket_ok connect_ok s).loop_running = s.loop_running) ∧
    ((socket_readable_error_model socket_ok connect_ok s).errors_read = s.errors_read + 1 ∧
     (socket_readable_error_model socket_ok connect_ok s).errors_write = s.errors_write ∧
     (socket_readable_error_model socket_ok connect_ok s).errors_reconnect = s.errors_reconnect + 1 ∧
     (socket_readable_error_model socket_ok connect_ok s).connect_initiated = true ∧
     (socket_readable_error_model socket_ok connect_ok s).loop_running = s.loop_running) ∧
    ((reconnect_teardown s).ev_readable = false ∧
     (reconnect_teardown s).ev_writable = false ∧
     (reconnect_teardown s).sock_open = false) ∧
    (socket_writeable_error_model socket_ok connect_ok s =
      connect_socket_model socket_ok connect_ok
        (reconnect_teardown { s with errors_write := s.errors_write + 1 })) ∧
    (socket_readable_error_model socket_ok connect_ok s =
      connect_socket_model socket_ok connect_ok
        (reconnect_teardown { s with errors_read := s.errors_read + 1 })) := by
  subst hsock
  cases connect_ok <;>
    simp [socket_writeable_error_model, socket_readable_error_model,
      reconnect_socket_model, reconnect_teardown, connect_socket_model]

/-- Witness for the amended C9 at the concrete healthy state. -/
theorem c9_error_recovery_witness :
    (socket_writeable_error_model true true c9ex).errors_write =
      c9ex.errors_write + 1 :=
  (c9_error_recovery true true c9ex rfl).1.1

/-- The batch-start bookkeeping of `socket_writeable` for a fresh send
(src/wrk.c lines 878-886, the `!c->written` branch once the pacer allowed
the send): stamp `c->start`; on a new batch snapshot `actual_latency_start`
and `complete_at_last_batch_start` and raise `has_pending`; then set
`pending` to the configured pipeline depth. -/
def send_start_model (c : connection) (now pipeline : ℕ) : connection :=
  let c2 := { c with start := now }
  let c3 :=
    if c2.has_pending = false then
      { c2 with actual_latency_start := now,
                complete_at_last_batch_start := c2.complete,
                has_pending := true }
    else c2
  { c3 with pending := pipeline }

/-- The post-increment batch state of `response_complete` (src/wrk.c lines
755-761) for a response that arrives before the deadline: `pending` is
decremented in `uint64_t`, and exactly when it reaches zero `has_pending`
is cleared and a WRITABLE event is created. -/
theorem response_complete_batch_state (c : connection) (now stop_at : ℕ)
    (record_all : Bool) (hist : List ℤ) (hns : ¬ stop_at ≤ now) :
    (response_complete_model c now stop_at record_all hist).1.pending =
        u64_sub c.pending 1 ∧
    (response_complete_model c now stop_at record_all hist).1.has_pending =
        (if u64_sub c.pending 1 = 0 then false else c.has_pending) ∧
    (response_complete_model c now stop_at record_all hist).2.1 =
        (if u64_sub c.pending 1 = 0 then true else false) := by
  unfold response_complete_model
  simp only [hns, if_false]
  by_cases hp : u64_sub c.pending 1 = 0 <;> simp [hp]

/-- States of (connection, WRITABLE-event subscription) reachable through
batch starts and completed responses.  A connection starts with zeroed
batch state (`zcalloc` in `thread_main`), and a response can only complete
while responses are pending. -/
inductive BatchReach (pipeline : ℕ) : connection × Bool → Prop
  | init (c : connection) (w : Bool) (hp : c.pending = 0)
      (hh : c.has_pending = false) : BatchReach pipeline (c, w)
  | send (cw : connection × Bool) (now : ℕ) (h : BatchReach pipeline cw) :
      BatchReach pipeline (send_start_model cw.1 now pipeline, cw.2)
  | respond (cw : connection × Bool) (now stop_at : ℕ) (record_all : Bool)
      (hist : List ℤ) (h : BatchReach pipeline cw) (hp : 0 < cw.1.pending) :
      BatchReach pipeline
        ((response_complete_model cw.1 now stop_at record_all hist).1,
          cw.2 || (response_complete_model cw.1 now stop_at record_all hist).2.1)

/-- C6: in every state reachable through the send-start and
response-complete operations, `pending > 0` holds iff `has_pending` is set
(with `pending` never exceeding the pipeline depth); and a completed
response decrements `pending` and, exactly when it reaches zero, clears
`has_pending` and re-subscribes the WRITABLE event. -/
theorem c6_pending_iff_has_pending (pipeline : ℕ) (cw : connection × Bool)
    (hpl : 0 < pipeline) (hpu : pipeline < U64) (h : BatchReach pipeline cw) :
    ((0 < cw.1.pending ↔ cw.1.has_pending = true) ∧ cw.1.pending ≤ pipeline) ∧
    (∀ now stop_at record_all hist, ¬ stop_at ≤ now →
      (response_complete_model cw.1 now stop_at record_all hist).1.pending =
          u64_sub cw.1.pending 1 ∧
      (response_complete_model cw.1 now stop_at record_all hist).1.has_pending =
          (if u64_sub cw.1.pending 1 = 0 then false else cw.1.has_pending) ∧
      (response_complete_model cw.1 now stop_at record_all hist).2.1 =
          (if u64_sub cw.1.pending 1 = 0 then true else false)) := by
  refine ⟨?_, fun now stop_at record_all hist hns =>
    response_complete_batch_state cw.1 now stop_at record_all hist hns⟩
  induction h with
  | init c w hp hh =>
    constructor
    · rw [hp, hh]
      simp
    · rw [hp]
      exact Nat.zero_le _
  | send cw now h ih =>
    unfold send_start_model
    by_cases hh : cw.1.has_pending = false <;> simp [hh, hpl]
  | respond cw now stop_at record_all hist h hp ih =>
    by_cases hns : stop_at ≤ now
    · unfold response_complete_model
      simp only [if_pos hns]
      exact ih
    · obtain ⟨hpend, hhp, _⟩ :=
        response_complete_batch_state cw.1 now stop_at record_all hist hns
      have hlt : cw.1.pending < U64 := lt_of_le_of_lt ih.2 hpu
      have hsub : u64_sub cw.1.pending 1 = cw.1.pending - 1 := u64_sub_eq hp hlt
      constructor
      · rw [hpend, hhp, hsub]
        by_cases hz : cw.1.pending - 1 = 0
        · simp [hz]
        · simp [hz, ih.1.mp hp]
          omega
      · rw [hpend, hsub]
        have := ih.2
        omega

/-- Zeroed connection as laid out by `zcalloc` before the first send. -/
def c6init : connection :=
  { thread_start := 0, throughput := 1, catch_up_throughput := 2, complete := 0,
    caught_up := true, catch_up_start_time := 0, complete_at_catch_up_start := 0,
    complete_at_last_batch_start := 0, start := 0, pending := 0, has_pending := false,
    actual_latency_start := 0, latest_should_send_time := 0, latest_expected_start := 0 }

/-- Witness for C6 after one batch start with pipeline depth 2. -/
theorem c6_pending_iff_has_pending_witness :
    0 < (send_start_model c6init 5 2).pending ↔
      (send_start_model c6init 5 2).has_pending = true :=
  (c6_pending_iff_has_pending 2 (send_start_model c6init 5 2, false)
    (by norm_num) (by norm_num [U64])
    (BatchReach.send (c6init, false) 5
      (BatchReach.init c6init false rfl rfl))).1.1

/-- Worker phase (PHASE_WARMUP / PHASE_NORMAL of src/wrk.c lines 21-25;
PHASE_INIT precedes the event loop and takes part in no barrier step). -/
inductive Phase
  | warmup
  | normal
deriving DecidableEq

/-- Cross-worker barrier state for `n` workers: per-worker
established-connection counters (`errors.established`), phases and sync
timers, plus the process-wide `g_ready_threads` counter and `g_is_ready`
flag (src/wrk.c lines 69-70). -/
structure BarrierSys (n : ℕ) where
  est : Fin n → ℕ
  phase : Fin n → Phase
  sync_armed : Fin n → Bool
  ready_threads : ℕ
  is_ready : Bool

/-- Initial barrier state: nothing established, all workers in WARMUP, no
sync timers, counter zero, flag unset. -/
def barrier_init (n : ℕ) : BarrierSys n :=
  { est := fun _ => 0, phase := fun _ => Phase.warmup, sync_armed := fun _ => false,
    ready_threads := 0, is_ready := false }

/-- A successful establishment on worker `i` (src/wrk.c line 823 and the
warmup block of `socket_connected`, lines 833-842): `errors.established` is
incremented; at the moment it equals the worker's connection count, the
sync timer is created, `g_ready_threads` is atomically incremented, and
when the new counter value equals the thread count, `g_is_ready` is
raised. -/
def establish_step {n : ℕ} (conn : Fin n → ℕ) (i : Fin n) (s : BarrierSys n) :
    BarrierSys n :=
  let e := s.est i + 1
  let s2 := { s with est := Function.update s.est i e }
  if e = conn i then
    let counter := s2.ready_threads + 1
    { s2 with sync_armed := Function.update s2.sync_armed i true,
              ready_threads := counter,
              is_ready := if counter = n then true else s2.is_ready }
  else s2

/-- `inter_thread_sync` on worker `i` (src/wrk.c lines 591-599): move to
NORMAL when `g_is_ready` is observed, then keep the timer armed exactly
while the phase is not NORMAL. -/
def sync_step {n : ℕ} (i : Fin n) (s : BarrierSys n) : BarrierSys n :=
  let s2 :=
    if s.is_ready = true then { s with phase := Function.update s.phase i Phase.normal }
    else s
  { s2 with sync_armed :=
      Function.update s2.sync_armed i (decide (s2.phase i ≠ Phase.normal)) }

/-- `warmup_timed_out` on worker `i` (src/wrk.c lines 582-589): an
unconditional move to NORMAL. -/
def warmup_timeout_step {n : ℕ} (i : Fin n) (s : BarrierSys n) : BarrierSys n :=
  { s with phase := Function.update s.phase i Phase.normal }

/-- Interleaved barrier transitions with warmup enabled; the atomic
fetch-add of `g_ready_threads` serializes the establishment steps. -/
inductive BarrierStep {n : ℕ} (conn : Fin n → ℕ) :
    BarrierSys n → BarrierSys n → Prop
  | establish (i : Fin n) (s : BarrierSys n) :
      BarrierStep conn s (establish_step conn i s)
  | sync (i : Fin n) (s : BarrierSys n) (h : s.sync_armed i = true) :
      BarrierStep conn s (sync_step i s)
  | timeout (i : Fin n) (s : BarrierSys n) :
      BarrierStep conn s (warmup_timeout_step i s)

/-- Barrier states reachable from the initial state. -/
inductive BarrierReach {n : ℕ} (conn : Fin n → ℕ) : BarrierSys n → Prop
  | init : BarrierReach conn (barrier_init n)
  | step (s t : BarrierSys n) (h : BarrierReach conn s)
      (hs : BarrierStep conn s t) : BarrierReach conn t

/-- The number of workers whose established count has reached their
connection count. -/
def ready_count {n : ℕ} (conn : Fin n → ℕ) (s : BarrierSys n) : ℕ :=
  (Finset.univ.filter fun i => conn i ≤ s.est i).card

/-- The ready count never exceeds the worker count. -/
theorem ready_count_le {n : ℕ} (conn : Fin n → ℕ) (s : BarrierSys n) :
    ready_count conn s ≤ n := by
  unfold ready_count
  calc (Finset.univ.filter fun i => conn i ≤ s.est i).card
      ≤ (Finset.univ : Finset (Fin n)).card := Finset.card_filter_le _ _
    _ = n := by simp

/-- Incrementing one worker's established count raises the ready count by
one exactly when the new value meets that worker's connection count. -/
theorem ready_count_update {n : ℕ} (conn est : Fin n → ℕ) (i : Fin n) :
    (Finset.univ.filter fun j => conn j ≤ Function.update est i (est i + 1) j).card =
      (Finset.univ.filter fun j => conn j ≤ est j).card +
        (if est i + 1 = conn i then 1 else 0) := by
  rw [Finset.card_filter, Finset.card_filter,
    Finset.sum_eq_sum_diff_singleton_add (Finset.mem_univ i),
    Finset.sum_eq_sum_diff_singleton_add (Finset.mem_univ i)]
  have hrest :
      (∑ j ∈ Finset.univ \ {i},
          if conn j ≤ Function.update est i (est i + 1) j then 1 else 0) =
        ∑ j ∈ Finset.univ \ {i}, if conn j ≤ est j then 1 else 0 := by
    refine Finset.sum_congr rfl fun j hj => ?_
    have hji : j ≠ i := by
      rcases Finset.mem_sdiff.mp hj with ⟨_, hj2⟩
      simpa using hj2
    rw [Function.update_noteq hji]
  rw [hrest, Function.update_same]
  split_ifs <;> omega

/-- A sync tick changes no established count and no barrier global. -/
theorem sync_step_fields {n : ℕ} (i : Fin n) (s : BarrierSys n) :
    (sync_step i s).est = s.est ∧
    (sync_step i s).ready_threads = s.ready_threads ∧
    (sync_step i s).is_ready = s.is_ready := by
  unfold sync_step
  by_cases h : s.is_ready = true <;> simp [h]

/-- Fields of an establishment step crossing the connection count. -/
theorem establish_cross_fields {n : ℕ} (conn : Fin n → ℕ) (i : Fin n)
    (s : BarrierSys n) (hcross : s.est i + 1 = conn i) :
    (establish_step conn i s).est = Function.update s.est i (s.est i + 1) ∧
    (establish_step conn i s).ready_threads = s.ready_threads + 1 ∧
    (establish_step conn i s).is_ready =
      (if s.ready_threads + 1 = n then true else s.is_ready) := by
  unfold establish_step
  rw [if_pos hcross]
  exact ⟨rfl, rfl, rfl⟩

/-- Fields of an establishment step that does not cross the connection
count. -/
theorem establish_nocross_fields {n : ℕ} (conn : Fin n → ℕ) (i : Fin n)
    (s : BarrierSys n) (hcross : ¬ (s.est i + 1 = conn i)) :
    (establish_step conn i s).est = Function.update s.est i (s.est i + 1) ∧
    (establish_step conn i s).ready_threads = s.ready_threads ∧
    (establish_step conn i s).is_ready = s.is_ready := by
  unfold establish_step
  rw [if_neg hcross]
  exact ⟨rfl, rfl, rfl⟩

/-- C7: under warmup, `g_ready_threads` always equals the number of workers
whose established count has reached their connection count — each worker
contributes exactly once, at the moment of equality — `g_is_ready` is set
exactly when that counter equals the thread count and never while it is
below, and a sync tick that observes `g_is_ready` moves its worker to
NORMAL and stops re-arming its timer. -/
theorem c7_warmup_barrier {n : ℕ} (conn : Fin n → ℕ) (s : BarrierSys n)
    (hn : 0 < n) (hc : ∀ i, 0 < conn i) (h : BarrierReach conn s) :
    (s.ready_threads = ready_count conn s ∧
      (s.is_ready = true ↔ s.ready_threads = n)) ∧
    (∀ i : Fin n, s.is_ready = true →
      (sync_step i s).phase i = Phase.normal ∧
      (sync_step i s).sync_armed i = false) := by
  refine ⟨?_, fun i hr => ?_⟩
  · induction h with
    | init =>
      constructor
      · have hempty :
            (Finset.univ.filter fun i : Fin n => conn i ≤ (barrier_init n).est i) = ∅ := by
          refine Finset.filter_eq_empty_iff.mpr fun i _ => ?_
          have := hc i
          simp only [barrier_init]
          omega
        unfold ready_count
        rw [hempty]
        simp [barrier_init]
      · simp only [barrier_init]
        constructor
        · intro hfalse
          exact absurd hfalse (by simp)
        · intro h0
          omega
    | step s t hreach hstep ih =>
      cases hstep with
      | establish i s =>
        obtain ⟨hrt, hiff⟩ := ih
        by_cases hcross : s.est i + 1 = conn i
        · obtain ⟨he, hr, hir⟩ := establish_cross_fields conn i s hcross
          have hcount : ready_count conn (establish_step conn i s) =
              ready_count conn s + 1 := by
            unfold ready_count
            rw [he, ready_count_update, if_pos hcross]
          have hnotmem : ¬ conn i ≤ s.est i := by omega
          have hlt : ready_count conn s < n := by
            have hss : (Finset.univ.filter fun j => conn j ≤ s.est j) ⊆
                Finset.univ.erase i := by
              intro j hj
              rcases Finset.mem_filter.mp hj with ⟨_, hj2⟩
              refine Finset.mem_erase.mpr ⟨?_, Finset.mem_univ j⟩
              rintro rfl
              exact hnotmem hj2
            have hcard : ready_count conn s ≤ (Finset.univ.erase i).card :=
              Finset.card_le_card hss
            have hcard2 : (Finset.univ.erase i).card = n - 1 := by simp
            omega
          constructor
          · rw [hr, hcount, hrt]
          · rw [hir, hr]
            by_cases hcnt : s.ready_threads + 1 = n
            · simp [hcnt]
            · simp only [hcnt, if_false, iff_false]
              intro h6
              have h7 := hiff.mp h6
              omega
        · obtain ⟨he, hr, hir⟩ := establish_nocross_fields conn i s hcross
          have hcount : ready_count conn (establish_step conn i s) =
              ready_count conn s := by
            unfold ready_count
            rw [he, ready_count_update, if_neg hcross]
            omega
          constructor
          · rw [hr, hcount]
            exact hrt
          · rw [hir, hr]
            exact hiff
      | sync i s hs =>
        obtain ⟨h1, h2, h3⟩ := sync_step_fields i s
        unfold ready_count at ih ⊢
        rw [h1, h2, h3]
        exact ih
      | timeout i s =>
        unfold ready_count at ih ⊢
        exact ih
  · constructor
    · unfold sync_step
      simp [hr]
    · unfold sync_step
      simp [hr]

/-- Witness for C7: one worker with one connection, after its single
establishment. -/
theorem c7_warmup_barrier_witness :
    ((establish_step (fun _ => 1) 0 (barrier_init 1)).ready_threads =
        ready_count (fun _ => 1) (establish_step (fun _ => 1) 0 (barrier_init 1)) ∧
      ((establish_step (fun _ => 1) 0 (barrier_init 1)).is_ready = true ↔
        (establish_step (fun _ => 1) 0 (barrier_init 1)).ready_threads = 1)) ∧
    (∀ i : Fin 1, (establish_step (fun _ => 1) 0 (barrier_init 1)).is_ready = true →
      (sync_step i (establish_step (fun _ => 1) 0 (barrier_init 1))).phase i =
          Phase.normal ∧
      (sync_step i (establish_step (fun _ => 1) 0 (barrier_init 1))).sync_armed i =
          false) :=
  c7_warmup_barrier (fun _ => 1) (establish_step (fun _ => 1) 0 (barrier_init 1))
    (by norm_num) (fun _ => by norm_num)
    (BarrierReach.step (barrier_init 1) _ BarrierReach.init
      (BarrierStep.establish 0 (barrier_init 1)))

end Wrk2
